import Mathlib

/-!
Shallow embedding of the tandonia backend (`api/index.js`, current revision)
and proofs of the specification claims about it.

The JavaScript handlers are translated into pure Lean functions:
* the relational store is an explicit `DB` value (lists of rows plus the
  serial-id counter),
* the checklist-submission transaction is run in `Except`, with an injected
  failure oracle standing for database errors on individual INSERT
  statements; `COMMIT` publishes the transaction-local state, `ROLLBACK`
  (the catch branch) discards it,
* JavaScript truthiness on the request fields is modelled explicitly
  (`none` / empty string / integer zero are falsy),
* JSON numbers appearing in requests are modelled as integers (`Int`),
  which covers every value the claims quantify over.
-/

namespace Tandonia

/-! ## Geometry (PostGIS calls used by the handlers) -/

/-- A PostGIS point value: raw coordinates plus the SRID tag. -/
structure Geom where
  x : Int
  y : Int
  srid : Nat
deriving DecidableEq, Repr

/-- `ST_MakePoint(x, y)` builds a point with no SRID assigned (SRID 0). -/
def ST_MakePoint (x y : Int) : Geom := { x := x, y := y, srid := 0 }

/-- `ST_SetSRID(geom, srid)` tags the geometry with a coordinate system;
it does not change the coordinates. -/
def ST_SetSRID (g : Geom) (srid : Nat) : Geom := { g with srid := srid }

/-- `ST_X(geom)`. -/
def ST_X (g : Geom) : Int := g.x

/-- `ST_Y(geom)`. -/
def ST_Y (g : Geom) : Int := g.y

/-- A latitude/longitude pair as sent by the client
(`locations[locType] = { lat, lng }`). -/
structure Coord where
  lat : Int
  lng : Int
deriving DecidableEq, Repr

/-! ## Relational store state -/

/-- A row of the `checklists` table. -/
structure ChecklistRow where
  id : Nat
  user_id : String
  grid_cell_id : String
  time_spent_minutes : Int
  submitted_at : Nat
deriving DecidableEq, Repr

/-- A row of the `checklist_locations` table. -/
structure ChecklistLocationRow where
  checklist_id : Nat
  location_type : String
  geom : Geom
deriving DecidableEq, Repr

/-- A row of the `species_observations` table. -/
structure SpeciesObservationRow where
  checklist_id : Nat
  species_name : String
  count : Int
deriving DecidableEq, Repr

/-- The relational store: the three checklist tables plus the serial
sequence that generates checklist ids (`RETURNING id`). -/
structure DB where
  checklists : List ChecklistRow
  checklist_locations : List ChecklistLocationRow
  species_observations : List SpeciesObservationRow
  nextChecklistId : Nat
deriving DecidableEq, Repr

/-- Well-formedness of the store: every stored id was generated by the
serial sequence, so it is below the next value to be handed out. -/
def DB.WF (db : DB) : Prop :=
  (∀ r ∈ db.checklists, r.id < db.nextChecklistId) ∧
  (∀ l ∈ db.checklist_locations, l.checklist_id < db.nextChecklistId) ∧
  (∀ s ∈ db.species_observations, s.checklist_id < db.nextChecklistId)

/-! ## JavaScript truthiness helpers -/

/-- Truthiness of an optional string field of the request body:
`undefined` and `''` are falsy. -/
def jsTruthyStr : Option String → Bool
  | none => false
  | some s => !(s == "")

/-- Truthiness of an optional integer field: `undefined` and `0` are
falsy.  `Number.isNaN(Number(n))` is `false` for every integer, so the
`timeSpent` check in the handler reduces to this truthiness test. -/
def jsTruthyInt : Option Int → Bool
  | none => false
  | some n => !(n == 0)

/-! ## Checklist submission (`POST /api/checklists`, relational path) -/

/-- The parsed request body of `POST /api/checklists`.  The `locations`
object is modelled as a lookup function, faithful to a JavaScript object
that the handler only ever indexes by fixed keys; `species` keeps the
entry order of `Object.entries`. -/
structure ChecklistBody where
  gridCellId : Option String
  locations : String → Option Coord
  species : List (String × Int)
  timeSpent : Option Int

/-- `const normalizedLocations = { ...locations };
if (!normalizedLocations.anthropogenous && normalizedLocations.urban)
  normalizedLocations.anthropogenous = normalizedLocations.urban;` -/
def normalizeLocations (locations : String → Option Coord) : String → Option Coord :=
  fun k =>
    if k = "anthropogenous" then
      match locations "anthropogenous" with
      | some c => some c
      | none => locations "urban"
    else locations k

/-- Which INSERT statements of the transaction raise a database error,
numbered in execution order (0 = the checklist header insert). -/
def FailureOracle : Type := Nat → Bool

/-- The oracle under which no statement fails. -/
def noFailure : FailureOracle := fun _ => false

/-- The fixed habitat keys iterated by the handler. -/
def locationTypes : List String := ["forest", "swamp", "anthropogenous"]

/-- The location-insert loop of the transaction: for each habitat key
present (truthy) in the normalized locations, one INSERT into
`checklist_locations` with `ST_SetSRID(ST_MakePoint(lng, lat), 31370)`.
Carries the statement counter for the failure oracle. -/
def insertLocations (fail : FailureOracle) (cid : Nat) (locs : String → Option Coord) :
    List String → Nat → DB → Except Unit (DB × Nat)
  | [], step, db => .ok (db, step)
  | t :: rest, step, db =>
    match locs t with
    | none => insertLocations fail cid locs rest step db
    | some c =>
      if fail step then .error ()
      else
        insertLocations fail cid locs rest (step + 1)
          { db with checklist_locations :=
              db.checklist_locations ++
                [⟨cid, t, ST_SetSRID (ST_MakePoint c.lng c.lat) 31370⟩] }

/-- The species-insert loop of the transaction: for each
`Object.entries(species)` pair with `count > 0`, one INSERT into
`species_observations`. -/
def insertSpecies (fail : FailureOracle) (cid : Nat) :
    List (String × Int) → Nat → DB → Except Unit (DB × Nat)
  | [], step, db => .ok (db, step)
  | (name, count) :: rest, step, db =>
    if count > 0 then
      if fail step then .error ()
      else
        insertSpecies fail cid rest (step + 1)
          { db with species_observations :=
              db.species_observations ++ [⟨cid, name, count⟩] }
    else insertSpecies fail cid rest step db

/-- Steps 2-4 of the transaction (header insert returning the fresh id,
location inserts, species inserts), run on the transaction-local state.
Any raised error aborts the whole sequence. -/
def runInserts (fail : FailureOracle) (userId gridCellId : String) (timeSpent : Int)
    (now : Nat) (normalizedLocations : String → Option Coord)
    (species : List (String × Int)) (db : DB) : Except Unit (DB × Nat) :=
  if fail 0 then .error ()
  else
    let cid := db.nextChecklistId
    let db1 : DB :=
      { db with
        checklists := db.checklists ++ [⟨cid, userId, gridCellId, timeSpent, now⟩],
        nextChecklistId := cid + 1 }
    match insertLocations fail cid normalizedLocations locationTypes 1 db1 with
    | .error () => .error ()
    | .ok (db2, step) =>
      match insertSpecies fail cid species step db2 with
      | .error () => .error ()
      | .ok (db3, _) => .ok (db3, cid)

/-- The JSON responses the `POST /api/checklists` relational path can
produce. -/
inductive ApiResponse where
  /-- 200 `{ success: true, checklistId, message }` -/
  | ok (checklistId : Nat)
  /-- 401 `{ error: 'Unauthorized', ... }` -/
  | unauthorized
  /-- 400 `{ error: 'Bad Request', hint }` -/
  | badRequest (hint : String)
  /-- 500 `{ error, detail }` -/
  | serverError (error : String)
deriving DecidableEq, Repr

/-- The `POST /api/checklists` handler on the relational path: field
extraction and `urban` normalization, the early validation of
`req.user.id`, `gridCellId` and `timeSpent`, then the transaction.  On
success the transaction commits (the local state becomes visible); on
any insert failure the catch branch rolls back, so the store is
unchanged, and a single 500 error is returned. -/
def submitChecklist (fail : FailureOracle) (userId : Option String)
    (body : ChecklistBody) (now : Nat) (db : DB) : ApiResponse × DB :=
  let normalizedLocations := normalizeLocations body.locations
  match userId with
  | none => (.unauthorized, db)
  | some uid =>
    if uid = "" then (.unauthorized, db)
    else
      match body.gridCellId with
      | none => (.badRequest "gridCellId is required", db)
      | some gcid =>
        if gcid = "" then (.badRequest "gridCellId is required", db)
        else
          match body.timeSpent with
          | none => (.badRequest "timeSpent is required and must be a number", db)
          | some ts =>
            if ts = 0 then (.badRequest "timeSpent is required and must be a number", db)
            else
              match runInserts fail uid gcid ts now normalizedLocations body.species db with
              | .ok (db', cid) => (.ok cid, db')
              | .error () => (.serverError "Error submitting checklist", db)

/-! ## Checklist detail (`GET /api/checklists/:id`, relational path) -/

/-- One row of the locations query result
(`location_type, ST_Y(geom) as lat, ST_X(geom) as lng`). -/
structure LocationOut where
  location_type : String
  lat : Int
  lng : Int
deriving DecidableEq, Repr

/-- One row of the species query result. -/
structure SpeciesOut where
  species_name : String
  count : Int
deriving DecidableEq, Repr

/-- The successful response body of `GET /api/checklists/:id`. -/
structure ChecklistDetail where
  checklist : ChecklistRow
  locations : List LocationOut
  species : List SpeciesOut
deriving DecidableEq, Repr

/-- Insertion into a list sorted by the boolean relation `le`. -/
def insertSorted (le : α → α → Bool) (a : α) : List α → List α
  | [] => [a]
  | b :: l => if le a b then a :: b :: l else b :: insertSorted le a l

/-- Insertion sort by the boolean relation `le`; models both the SQL
`ORDER BY` clauses and `Array.prototype.sort` with a consistent
comparator. -/
def sortBy (le : α → α → Bool) : List α → List α
  | [] => []
  | a :: l => insertSorted le a (sortBy le l)

/-- `ORDER BY species_name`. -/
def sortBySpeciesName (l : List SpeciesOut) : List SpeciesOut :=
  sortBy (fun a b => a.species_name ≤ b.species_name) l

/-- The `GET /api/checklists/:id` handler on the relational path:
`SELECT * FROM checklists WHERE id = $1 AND user_id = $2`; an empty
result is answered with 404 `{ error: 'Checklist not found' }`
(modelled as `none`), covering both a missing checklist and a checklist
owned by another user with one and the same response. -/
def getChecklist (userId : String) (checklistId : Nat) (db : DB) : Option ChecklistDetail :=
  match db.checklists.filter (fun r => r.id == checklistId && r.user_id == userId) with
  | [] => none
  | c :: _ =>
    let locations :=
      (db.checklist_locations.filter (fun l => l.checklist_id == checklistId)).map
        (fun l => { location_type := l.location_type, lat := ST_Y l.geom, lng := ST_X l.geom })
    let species :=
      sortBySpeciesName
        ((db.species_observations.filter (fun s => s.checklist_id == checklistId)).map
          (fun s => { species_name := s.species_name, count := s.count }))
    some { checklist := c, locations := locations, species := species }

/-! ## Token verifier (`authenticateToken` middleware) -/

/-- The identity attached to the request on successful verification
(`req.user = { id, email }`; local tokens are signed by this backend
with exactly these fields). -/
structure Identity where
  id : String
  email : String
deriving DecidableEq, Repr

/-- `const token = authHeader && authHeader.split(' ')[1]` followed by
the `if (!token)` truthiness test: a missing header, a header without a
second space-separated part, and an empty second part all count as "no
token". -/
def extractBearerToken (authHeader : Option String) : Option String :=
  match authHeader with
  | none => none
  | some h =>
    match (h.splitOn " ").get? 1 with
    | none => none
    | some t => if t = "" then none else some t

/-- The middleware's outcome. -/
inductive AuthOutcome where
  /-- 401 `{ error: 'No token provided' }` -/
  | unauthenticated
  /-- 403 `{ error: 'Invalid token' }` -/
  | invalidToken
  /-- `req.user` set, `next()` called -/
  | ok (user : Identity)
deriving DecidableEq, Repr

/-- The `authenticateToken` middleware.  `supabaseAdmin` is the optional
external verifier (`supabaseAdmin.auth.getUser`, returning `none` on an
error result, a missing user, or a thrown exception); `jwtVerify` is the
local `jwt.verify` against the server secret, returning `none` when it
throws.  When the external provider is configured it is used
exclusively; otherwise the local path runs. -/
def authenticateToken (supabaseAdmin : Option (String → Option Identity))
    (jwtVerify : String → Option Identity) (authHeader : Option String) : AuthOutcome :=
  match extractBearerToken authHeader with
  | none => .unauthenticated
  | some token =>
    match supabaseAdmin with
    | some getUser =>
      match getUser token with
      | none => .invalidToken
      | some u => .ok u
    | none =>
      match jwtVerify token with
      | none => .invalidToken
      | some u => .ok u

/-- The verification path selected by the configuration: the external
provider when configured, otherwise the local JWT path. -/
def verifyPath (supabaseAdmin : Option (String → Option Identity))
    (jwtVerify : String → Option Identity) : String → Option Identity :=
  match supabaseAdmin with
  | some getUser => getUser
  | none => jwtVerify

/-! ## Species catalog (`GET /api/species`) -/

/-- A raw row as delivered by a Supabase species table, with every field
alias the normalizer probes.  Numeric fields are modelled as integers
(`parseInt` on an integer is the identity, and `|| 0` maps `0` to `0`). -/
structure RawSpeciesRow where
  id : Option Nat
  species_id : Option Nat
  slug_id : Option Nat
  scientific_name : Option String
  scientificName : Option String
  species : Option String
  name : Option String
  title : Option String
  dutch_name : Option String
  dutchName : Option String
  common_name : Option String
  dutch : Option String
  observation_count : Option Int
  count : Option Int
  observationCount : Option Int
  observations : Option Int
deriving DecidableEq, Repr

/-- A normalized species entry as returned to the client. -/
structure SpeciesEntry where
  id : Nat
  scientific_name : String
  dutch_name : Option String
  observation_count : Int
deriving DecidableEq, Repr

/-- JavaScript `a || b` on optional strings: an absent or empty string
falls through. -/
def jsOrStr (a : Option String) (b : Option String) : Option String :=
  match a with
  | none => b
  | some s => if s = "" then b else some s

/-- `normalizeSpeciesRow(row, idx)`: `??` chains for the ids and counts,
`||` chains for the names. -/
def normalizeSpeciesRow (row : RawSpeciesRow) (idx : Nat) : SpeciesEntry :=
  { id := row.id.getD (row.species_id.getD (row.slug_id.getD (idx + 1))),
    scientific_name :=
      (jsOrStr row.scientific_name (jsOrStr row.scientificName
        (jsOrStr row.species (jsOrStr row.name row.title)))).getD "",
    dutch_name :=
      jsOrStr row.dutch_name (jsOrStr row.dutchName (jsOrStr row.common_name row.dutch)),
    observation_count :=
      row.observation_count.getD (row.count.getD (row.observationCount.getD
        (row.observations.getD 0))) }

/-- `normalized.sort((a, b) => (b.observation_count || 0) - (a.observation_count || 0))`:
descending by observation count. -/
def sortByCountDesc (l : List SpeciesEntry) : List SpeciesEntry :=
  sortBy (fun a b => b.observation_count ≤ a.observation_count) l

/-- `fetchSupabaseSpeciesTables`: walk the configured table list; a
query error (`none`) or empty data is skipped; the first non-empty table
is normalized and sorted.  The outer `Option` is the `supabaseAdmin`
client. -/
def fetchSupabaseSpeciesTables
    (supabaseAdmin : Option (List (Option (List RawSpeciesRow)))) :
    Option (List SpeciesEntry) :=
  match supabaseAdmin with
  | none => none
  | some tables => go tables
where
  go : List (Option (List RawSpeciesRow)) → Option (List SpeciesEntry)
    | [] => none
    | none :: rest => go rest
    | some [] :: rest => go rest
    | some (r :: rs) :: _ =>
      some (sortByCountDesc (((r :: rs).enum).map (fun p => normalizeSpeciesRow p.2 p.1)))

/-- A row of the Postgres `species` table as selected by the join query
(`COALESCE(observation_count, 0)` applied below). -/
structure PgSpeciesRow where
  id : Nat
  scientific_name : String
  dutch_name : Option String
  observation_count : Option Int
deriving DecidableEq, Repr

/-- `fetchPostgresSpeciesJoin`: the `species` table with
`COALESCE(observation_count, 0)`, `ORDER BY observation_count DESC`.
The outer `Option` is the pool handle / query outcome (`none` when the
pool is absent or the query throws). -/
def fetchPostgresSpeciesJoin (pool : Option (List PgSpeciesRow)) :
    Option (List SpeciesEntry) :=
  match pool with
  | none => none
  | some rows =>
    some (sortByCountDesc (rows.map (fun r =>
      { id := r.id, scientific_name := r.scientific_name,
        dutch_name := r.dutch_name,
        observation_count := r.observation_count.getD 0 })))

/-- `if (x && x.length)`: keep only a present, non-empty list. -/
def nonEmptyList : Option (List α) → Option (List α)
  | some (a :: l) => some (a :: l)
  | _ => none

/-- The `GET /api/species` handler: Supabase tables first, then the
Postgres join, else 503 (`.error ()`). -/
def listSpecies (supabaseAdmin : Option (List (Option (List RawSpeciesRow))))
    (pool : Option (List PgSpeciesRow)) : Except Unit (List SpeciesEntry) :=
  match nonEmptyList (fetchSupabaseSpeciesTables supabaseAdmin) with
  | some l => .ok l
  | none =>
    match nonEmptyList (fetchPostgresSpeciesJoin pool) with
    | some l => .ok l
    | none => .error ()

/-! ## Grid cells (`GET /api/grid-cells`) -/

/-- A parsed GeoJSON geometry.  The handlers never inspect the geometry
beyond passing it through, so it is modelled opaquely; `parseGeometry`
returning `null` (unparseable or absent geometry) is modelled as the
row's geometry field being `none`. -/
structure GeoJson where
  raw : String
deriving DecidableEq, Repr

/-- A raw grid-cell row as handed to `normalizeGridCellRow` by either
call site (both construct `{ id, properties, geometry }` objects, so the
`grid_id` / `name` fallbacks of the normalizer never fire). -/
structure RawGridRow where
  id : Option String
  properties : List (String × String)
  geometry : Option GeoJson
deriving DecidableEq, Repr

/-- Feature properties after the handler's annotation: the pass-through
application property map plus the two derived fields the handler sets. -/
structure FeatureProps where
  base : List (String × String)
  checklist_count : Nat
  has_checklist : Bool
deriving DecidableEq, Repr

/-- A GeoJSON feature of the response. -/
structure Feature where
  id : String
  geometry : GeoJson
  properties : FeatureProps
deriving DecidableEq, Repr

/-- `normalizeGridCellRow(row, idx)`: drop the row when the geometry
does not parse; otherwise build the feature with
`id = row.id ?? 'cell-' + idx`.  The derived annotation fields are
initialised to their JavaScript-absent defaults and set by the caller. -/
def normalizeGridCellRow (row : RawGridRow) (idx : Nat) : Option Feature :=
  match row.geometry with
  | none => none
  | some g =>
    some { id := row.id.getD ("cell-" ++ toString idx),
           geometry := g,
           properties := { base := row.properties, checklist_count := 0, has_checklist := false } }

/-- `String(c.grid_cell_id ?? ...)` on a fetched checklist row whose
grid-cell reference may be null. -/
def jsStringOfKey : Option String → String
  | some s => s
  | none => "undefined"

/-- The `checklistCounts` object built by the Supabase path: start from
`{}` and increment per fetched checklist row; lookups of missing keys
yield 0 (`|| 0`). -/
def buildChecklistCounts (cs : List (Option String)) : String → Nat :=
  cs.foldl (fun m c => fun k => if k = jsStringOfKey c then m k + 1 else m k) (fun _ => 0)

/-- The Supabase branch of `GET /api/grid-cells`: normalize each row,
then set `properties.checklist_count` from the counts object (empty when
the checklists fetch failed) and
`properties.has_checklist = checklist_count > 0`. -/
def gridCellsSupabase (cells : List RawGridRow)
    (checklistFetch : Option (List (Option String))) : List Feature :=
  let checklistCounts : String → Nat :=
    match checklistFetch with
    | some cs => buildChecklistCounts cs
    | none => fun _ => 0
  (cells.enum).filterMap (fun p =>
    match normalizeGridCellRow p.2 p.1 with
    | none => none
    | some n =>
      let cnt := checklistCounts n.id
      some { n with properties :=
        { n.properties with checklist_count := cnt, has_checklist := cnt > 0 } })

/-- A raw row of the Postgres `grid_cells` table (`id` is the key the
checklists join on). -/
structure PgRawGridCell where
  id : String
  properties : List (String × String)
  geometry : Option GeoJson
deriving DecidableEq, Repr

/-- The Postgres branch of `GET /api/grid-cells`: the `LEFT JOIN`
subquery computes `checklist_count` as the number of `checklists` rows
whose `grid_cell_id` equals the cell id (`COALESCE(..., 0)`); the
handler then annotates each normalized feature. -/
def gridCellsPostgres (gridCells : List PgRawGridCell) (db : DB) : List Feature :=
  ((gridCells.map (fun gc =>
      (gc, (db.checklists.filter (fun c => c.grid_cell_id == gc.id)).length))).enum).filterMap
    (fun p =>
      match normalizeGridCellRow
          { id := some p.2.1.id, properties := p.2.1.properties, geometry := p.2.1.geometry }
          p.1 with
      | none => none
      | some n =>
        let cnt := p.2.2
        some { n with properties :=
          { n.properties with checklist_count := cnt, has_checklist := cnt > 0 } })

/-- The Postgres fallback of the route: 503 when the pool is absent, the
query throws, or no feature survives. -/
def listGridCellsPg : Option (List PgRawGridCell × DB) → Except Unit (List Feature)
  | none => .error ()
  | some (gcs, db) =>
    match gridCellsPostgres gcs db with
    | [] => .error ()
    | f :: fs => .ok (f :: fs)

/-- The `GET /api/grid-cells` handler: the Supabase branch answers when
it is configured, its query returns data, and at least one feature
survives normalization; otherwise the Postgres branch; otherwise 503. -/
def listGridCells (sbGrid : Option (List RawGridRow))
    (sbChecklists : Option (List (Option String)))
    (pg : Option (List PgRawGridCell × DB)) : Except Unit (List Feature) :=
  match sbGrid with
  | none => listGridCellsPg pg
  | some [] => listGridCellsPg pg
  | some (c :: cs) =>
    match gridCellsSupabase (c :: cs) sbChecklists with
    | [] => listGridCellsPg pg
    | f :: fs => .ok (f :: fs)

/-! ## Debug introspection endpoints -/

/-- The payload of `GET /api/debug/headers` when the flag is on. -/
structure HeadersPayload where
  origin : Option String
  isAllowed : Bool
  scheme : Option String
  tokenLen : Nat
  validatedUser : Option Identity
deriving Repr

/-- The payload of `GET /api/debug/db` when the flag is on. -/
structure DbPayload where
  ok : Bool
  message : Option String
  error : Option String
  poolPresent : Option Bool
  result : Option Int
deriving DecidableEq, Repr

/-- A debug endpoint's response. -/
inductive DebugResponse where
  /-- 404 `{ error: 'Not found' }` -/
  | notFound
  /-- 200 with the header-echo payload -/
  | headers (p : HeadersPayload)
  /-- 200 with the store-connectivity payload -/
  | dbStatus (p : DbPayload)
deriving Repr

/-- `GET /api/debug/headers`: 404 unless `DEBUG_API_ERRORS === 'true'`;
otherwise echo the origin/allow-list verdict, auth scheme, token length
and the Supabase validation of the token. -/
def debugHeadersRoute (debugApiErrors : Option String) (allowed : List String)
    (origin : Option String) (authHeader : Option String)
    (supabaseAdmin : Option (String → Option Identity)) : DebugResponse :=
  if debugApiErrors ≠ some "true" then .notFound
  else
    let auth := authHeader.getD ""
    let parts := auth.splitOn " "
    let scheme :=
      match parts.get? 0 with
      | none => none
      | some s => if s = "" then none else some s
    let token :=
      match parts.get? 1 with
      | none => none
      | some t => if t = "" then none else some t
    let tokenLen := match parts.get? 1 with | none => 0 | some t => t.length
    let validatedUser :=
      match token, supabaseAdmin with
      | some t, some getUser => getUser t
      | _, _ => none
    let isAllowed :=
      match origin with
      | none => false
      | some o => if o = "" then false else decide (o ∈ allowed)
    .headers ⟨origin, isAllowed, scheme, tokenLen, validatedUser⟩

/-- `GET /api/debug/db`: 404 unless `DEBUG_API_ERRORS === 'true'`;
otherwise report the connection-string presence, pool presence and the
outcome of `SELECT 1 as ok`. -/
def debugDbRoute (debugApiErrors : Option String) (databaseUrl : Option String)
    (pool : Option (Except String Int)) : DebugResponse :=
  if debugApiErrors ≠ some "true" then .notFound
  else if ¬ jsTruthyStr databaseUrl then
    .dbStatus ⟨false, some "DATABASE_URL not set", none, some pool.isSome, none⟩
  else
    match pool with
    | none =>
      .dbStatus ⟨false, some "Pool exists false - pool initialization failed", none, some false, none⟩
    | some (.ok v) => .dbStatus ⟨true, none, none, none, some v⟩
    | some (.error e) => .dbStatus ⟨false, none, some e, some true, none⟩

/-! ## Lemmas about the sorting helpers -/

theorem mem_insertSorted {le : α → α → Bool} {a x : α} {l : List α} :
    x ∈ insertSorted le a l ↔ x = a ∨ x ∈ l := by
  induction l with
  | nil => simp [insertSorted]
  | cons b l ih =>
    simp only [insertSorted]
    cases h : le a b with
    | true => simp [List.mem_cons]
    | false => simp only [Bool.false_eq_true, if_false, List.mem_cons, ih]; tauto

theorem mem_sortBy {le : α → α → Bool} {x : α} {l : List α} :
    x ∈ sortBy le l ↔ x ∈ l := by
  induction l with
  | nil => simp [sortBy]
  | cons a l ih => simp [sortBy, mem_insertSorted, ih]

theorem pairwise_insertSorted {le : α → α → Bool}
    (htrans : ∀ a b c, le a b = true → le b c = true → le a c = true)
    (htot : ∀ a b, le a b = true ∨ le b a = true)
    {a : α} {l : List α} (h : l.Pairwise (fun x y => le x y = true)) :
    (insertSorted le a l).Pairwise (fun x y => le x y = true) := by
  induction l with
  | nil => simp [insertSorted]
  | cons b l ih =>
    rw [List.pairwise_cons] at h
    obtain ⟨hb, hl⟩ := h
    simp only [insertSorted]
    cases hab : le a b with
    | true =>
      simp only [if_pos]
      refine List.Pairwise.cons ?_ (List.Pairwise.cons hb hl)
      intro c hc
      rcases List.mem_cons.mp hc with rfl | hc
      · exact hab
      · exact htrans a b c hab (hb c hc)
    | false =>
      simp only [Bool.false_eq_true, if_false]
      refine List.Pairwise.cons ?_ (ih hl)
      intro c hc
      rcases mem_insertSorted.mp hc with rfl | hc
      · rcases htot c b with h1 | h1
        · exact absurd h1 (by simp [hab])
        · exact h1
      · exact hb c hc

theorem pairwise_sortBy {le : α → α → Bool}
    (htrans : ∀ a b c, le a b = true → le b c = true → le a c = true)
    (htot : ∀ a b, le a b = true ∨ le b a = true) (l : List α) :
    (sortBy le l).Pairwise (fun x y => le x y = true) := by
  induction l with
  | nil => simp [sortBy]
  | cons a l ih => exact pairwise_insertSorted htrans htot ih

/-! ## Lemmas about the submission transaction -/

/-- The location rows the transaction writes for a given fresh id, a
normalized locations object and a habitat-key list. -/
def locRows (cid : Nat) (locs : String → Option Coord) (ts : List String) :
    List ChecklistLocationRow :=
  ts.filterMap (fun t =>
    (locs t).map (fun c => ⟨cid, t, ST_SetSRID (ST_MakePoint c.lng c.lat) 31370⟩))

/-- The species rows the transaction writes for a given fresh id. -/
def spRows (cid : Nat) (species : List (String × Int)) : List SpeciesObservationRow :=
  species.filterMap (fun p => if p.2 > 0 then some ⟨cid, p.1, p.2⟩ else none)

theorem insertLocations_noFailure (cid : Nat) (locs : String → Option Coord) :
    ∀ (ts : List String) (step : Nat) (db : DB),
      insertLocations noFailure cid locs ts step db =
        .ok ({ db with checklist_locations := db.checklist_locations ++ locRows cid locs ts },
             step + (locRows cid locs ts).length) := by
  intro ts
  induction ts with
  | nil => intro step db; simp [insertLocations, locRows]
  | cons t rest ih =>
    intro step db
    simp only [insertLocations, locRows, List.filterMap_cons]
    cases h : locs t with
    | none => simpa [h, locRows] using ih step db
    | some c =>
      simp only [h, Option.map_some, noFailure, Bool.false_eq_true, if_false]
      rw [ih]
      simp [locRows, List.append_assoc]
      omega

theorem insertSpecies_noFailure (cid : Nat) :
    ∀ (species : List (String × Int)) (step : Nat) (db : DB),
      insertSpecies noFailure cid species step db =
        .ok ({ db with species_observations := db.species_observations ++ spRows cid species },
             step + (spRows cid species).length) := by
  intro species
  induction species with
  | nil => intro step db; simp [insertSpecies, spRows]
  | cons p rest ih =>
    intro step db
    obtain ⟨name, count⟩ := p
    simp only [insertSpecies, spRows, List.filterMap_cons]
    by_cases h : count > 0
    · simp only [if_pos h, noFailure, Bool.false_eq_true, if_false]
      rw [ih]
      simp [spRows, List.append_assoc, h]
      omega
    · simpa [h, spRows] using ih step db

theorem runInserts_noFailure (uid gcid : String) (ts : Int) (now : Nat)
    (locs : String → Option Coord) (species : List (String × Int)) (db : DB) :
    runInserts noFailure uid gcid ts now locs species db =
      .ok ({ checklists := db.checklists ++ [⟨db.nextChecklistId, uid, gcid, ts, now⟩],
             checklist_locations :=
               db.checklist_locations ++ locRows db.nextChecklistId locs locationTypes,
             species_observations :=
               db.species_observations ++ spRows db.nextChecklistId species,
             nextChecklistId := db.nextChecklistId + 1 }, db.nextChecklistId) := by
  simp [runInserts, noFailure, insertLocations_noFailure, insertSpecies_noFailure]

/-- On a valid request, with no statement failing, the handler commits
exactly the header row, the location rows for the present habitat keys
and the positive species rows, and answers 200 with the fresh id. -/
theorem submitChecklist_noFailure_eq (uid gcid : String) (huid : uid ≠ "")
    (hgcid : gcid ≠ "") (ts : Int) (hts : ts ≠ 0) (now : Nat)
    (locs : String → Option Coord) (species : List (String × Int)) (db : DB) :
    submitChecklist noFailure (some uid) ⟨some gcid, locs, species, some ts⟩ now db =
      (.ok db.nextChecklistId,
       { checklists := db.checklists ++ [⟨db.nextChecklistId, uid, gcid, ts, now⟩],
         checklist_locations :=
           db.checklist_locations ++
             locRows db.nextChecklistId (normalizeLocations locs) locationTypes,
         species_observations :=
           db.species_observations ++ spRows db.nextChecklistId species,
         nextChecklistId := db.nextChecklistId + 1 }) := by
  simp [submitChecklist, huid, hgcid, hts, runInserts_noFailure]

/-- When the request carries no `urban` key, the normalization step is
the identity on the locations object. -/
theorem normalizeLocations_eq_of_urban_none {locs : String → Option Coord}
    (h : locs "urban" = none) (t : String) : normalizeLocations locs t = locs t := by
  by_cases ht : t = "anthropogenous"
  · subst ht
    cases ha : locs "anthropogenous" with
    | none => simp [normalizeLocations, ha, h]
    | some c => simp [normalizeLocations, ha]
  · simp [normalizeLocations, ht]

/-- An empty store (fresh deployment); the serial sequence starts at 1. -/
def dbEmpty : DB :=
  { checklists := [], checklist_locations := [], species_observations := [],
    nextChecklistId := 1 }

/-- A store holding one checklist owned by user `bob`. -/
def dbBob : DB :=
  { checklists := [⟨1, "bob", "cell-7", 15, 0⟩], checklist_locations := [],
    species_observations := [], nextChecklistId := 2 }

/-! ## Claim theorems -/

/-- C1: on the relational path, if any insert of steps 2-4 (header,
locations, species) fails, the handler rolls the transaction back and
answers with a single 500 error; the store is unchanged, so no header
or child row of the submission is ever visible. -/
theorem submit_rollback_on_insert_failure (fail : FailureOracle) (uid gcid : String)
    (huid : uid ≠ "") (hgcid : gcid ≠ "") (ts : Int) (hts : ts ≠ 0) (now : Nat)
    (locs : String → Option Coord) (species : List (String × Int)) (db : DB)
    (hfail : runInserts fail uid gcid ts now (normalizeLocations locs) species db =
      .error ()) :
    submitChecklist fail (some uid) ⟨some gcid, locs, species, some ts⟩ now db =
      (.serverError "Error submitting checklist", db) := by
  simp [submitChecklist, huid, hgcid, hts, hfail]

/-- Witness for C1: with every statement failing, a concrete valid
submission on the empty store answers 500 and leaves the store empty. -/
theorem submit_rollback_on_insert_failure_witness :
    submitChecklist (fun _ => true) (some "user-1")
        ⟨some "cell-7", fun _ => none, [("Arion ater", 3)], some 15⟩ 0 dbEmpty =
      (.serverError "Error submitting checklist", dbEmpty) :=
  submit_rollback_on_insert_failure (fun _ => true) "user-1" "cell-7" (by decide)
    (by decide) 15 (by decide) 0 (fun _ => none) [("Arion ater", 3)] dbEmpty rfl

/-- C2, counterexample: a submission whose `timeSpent` is the negative
integer -5 (not a positive integer) is not rejected with 400 — the
validation only tests truthiness and NaN — and it creates a checklist
header row with `time_spent_minutes = -5`. -/
theorem submit_negative_minutes_not_rejected :
    submitChecklist noFailure (some "user-1")
        ⟨some "cell-7", fun _ => none, [], some (-5)⟩ 0 dbEmpty =
      (.ok 1,
       { checklists := [⟨1, "user-1", "cell-7", -5, 0⟩], checklist_locations := [],
         species_observations := [], nextChecklistId := 2 }) := by
  rfl

/-- C2, amended: a submission whose `gridCellId` is missing or empty, or
whose `timeSpent` is missing or zero, is rejected with 400 and the store
is unchanged (no row in any of the three tables); a nonzero negative
`timeSpent` is not rejected. -/
theorem submit_validation_rejects (fail : FailureOracle) (uid : String) (huid : uid ≠ "")
    (body : ChecklistBody) (now : Nat) (db : DB)
    (h : body.gridCellId = none ∨ body.gridCellId = some "" ∨
         body.timeSpent = none ∨ body.timeSpent = some 0) :
    ∃ hint, submitChecklist fail (some uid) body now db = (.badRequest hint, db) := by
  obtain ⟨gcid, locs, species, tsp⟩ := body
  dsimp only at h
  rcases h with h | h | h | h
  · subst h
    exact ⟨"gridCellId is required", by simp [submitChecklist, huid]⟩
  · subst h
    exact ⟨"gridCellId is required", by simp [submitChecklist, huid]⟩
  · subst h
    cases gcid with
    | none => exact ⟨"gridCellId is required", by simp [submitChecklist, huid]⟩
    | some g =>
      by_cases hg : g = ""
      · subst hg
        exact ⟨"gridCellId is required", by simp [submitChecklist, huid]⟩
      · exact ⟨"timeSpent is required and must be a number",
          by simp [submitChecklist, huid, hg]⟩
  · subst h
    cases gcid with
    | none => exact ⟨"gridCellId is required", by simp [submitChecklist, huid]⟩
    | some g =>
      by_cases hg : g = ""
      · subst hg
        exact ⟨"gridCellId is required", by simp [submitChecklist, huid]⟩
      · exact ⟨"timeSpent is required and must be a number",
          by simp [submitChecklist, huid, hg]⟩

/-- Witness for the amended C2: a concrete authenticated submission with
`timeSpent = 0` is answered 400 and creates no row. -/
theorem submit_validation_rejects_witness :
    ∃ hint,
      submitChecklist noFailure (some "user-1")
          ⟨some "cell-7", fun _ => none, [("Arion ater", 3)], some 0⟩ 0 dbEmpty =
        (.badRequest hint, dbEmpty) :=
  submit_validation_rejects noFailure "user-1" (by decide)
    ⟨some "cell-7", fun _ => none, [("Arion ater", 3)], some 0⟩ 0 dbEmpty
    (by simp)

/-- C4: a submission carrying an `urban` location and no
`anthropogenous` one stores a `checklist_locations` row tagged
`anthropogenous` whose coordinates are exactly the submitted `urban`
coordinates. -/
theorem urban_alias_stored (db : DB) (uid gcid : String) (huid : uid ≠ "")
    (hgcid : gcid ≠ "") (ts : Int) (hts : ts ≠ 0) (now : Nat)
    (locs : String → Option Coord) (species : List (String × Int)) (c : Coord)
    (hanth : locs "anthropogenous" = none) (hurb : locs "urban" = some c) :
    (submitChecklist noFailure (some uid) ⟨some gcid, locs, species, some ts⟩ now db).1 =
        .ok db.nextChecklistId ∧
      ∃ r ∈ (submitChecklist noFailure (some uid)
          ⟨some gcid, locs, species, some ts⟩ now db).2.checklist_locations,
        r.checklist_id = db.nextChecklistId ∧ r.location_type = "anthropogenous" ∧
          ST_X r.geom = c.lng ∧ ST_Y r.geom = c.lat := by
  rw [submitChecklist_noFailure_eq uid gcid huid hgcid ts hts now locs species db]
  refine ⟨rfl, ⟨db.nextChecklistId, "anthropogenous",
    ST_SetSRID (ST_MakePoint c.lng c.lat) 31370⟩, ?_, rfl, rfl, rfl, rfl⟩
  apply List.mem_append_right
  apply List.mem_filterMap.mpr
  refine ⟨"anthropogenous", by simp [locationTypes], ?_⟩
  have : normalizeLocations locs "anthropogenous" = some c := by
    unfold normalizeLocations
    simp [hanth, hurb]
  rw [this]
  rfl

/-- Witness for C4: a concrete submission with only an `urban` point. -/
theorem urban_alias_stored_witness :
    (submitChecklist noFailure (some "user-1")
        ⟨some "cell-7",
         fun k => if k = "urban" then some ⟨50, 4⟩ else none, [], some 15⟩ 0 dbEmpty).1 =
      .ok dbEmpty.nextChecklistId ∧
    ∃ r ∈ (submitChecklist noFailure (some "user-1")
        ⟨some "cell-7",
         fun k => if k = "urban" then some ⟨50, 4⟩ else none, [], some 15⟩ 0
        dbEmpty).2.checklist_locations,
      r.checklist_id = dbEmpty.nextChecklistId ∧ r.location_type = "anthropogenous" ∧
        ST_X r.geom = (4 : Int) ∧ ST_Y r.geom = (50 : Int) :=
  urban_alias_stored dbEmpty "user-1" "cell-7" (by decide) (by decide) 15 (by decide) 0
    (fun k => if k = "urban" then some ⟨50, 4⟩ else none) [] ⟨50, 4⟩ (by decide) (by decide)

/-- C5: `GET /api/checklists/:id` answers 404 (`none`, the single
`Checklist not found` response) whenever no checklist with the requested
id is owned by the caller — covering both a nonexistent id and an id
owned by another user with the very same response value, so the two
cases are indistinguishable and no data of a foreign checklist is
returned. -/
theorem getChecklist_notFound (uid : String) (cid : Nat) (db : DB)
    (h : ∀ r ∈ db.checklists, r.id = cid → r.user_id ≠ uid) :
    getChecklist uid cid db = none := by
  unfold getChecklist
  have hf : db.checklists.filter (fun r => r.id == cid && r.user_id == uid) = [] := by
    rw [List.filter_eq_nil_iff]
    intro r hr
    simp only [Bool.and_eq_true, beq_iff_eq, not_and]
    exact h r hr
  rw [hf]

/-- Witness for C5: user `alice` requests checklist 1, once on a store
where it belongs to `bob` and once on a store where it does not exist;
both answers are the same 404. -/
theorem getChecklist_notFound_witness :
    getChecklist "alice" 1 dbBob = none ∧ getChecklist "alice" 1 dbEmpty = none :=
  ⟨getChecklist_notFound "alice" 1 dbBob (by decide),
   getChecklist_notFound "alice" 1 dbEmpty (by decide)⟩

/-! ## Read-back lemmas -/

theorem mem_locRows_id {cid : Nat} {locs : String → Option Coord} {ts : List String}
    {r : ChecklistLocationRow} (h : r ∈ locRows cid locs ts) : r.checklist_id = cid := by
  obtain ⟨t, _, ht⟩ := List.mem_filterMap.mp h
  cases hl : locs t with
  | none => rw [hl] at ht; cases ht
  | some c =>
    rw [hl] at ht
    cases ht
    rfl

theorem mem_locRows_type {cid : Nat} {locs : String → Option Coord} {ts : List String}
    {r : ChecklistLocationRow} (h : r ∈ locRows cid locs ts) : r.location_type ∈ ts := by
  obtain ⟨t, htmem, ht⟩ := List.mem_filterMap.mp h
  cases hl : locs t with
  | none => rw [hl] at ht; cases ht
  | some c =>
    rw [hl] at ht
    cases ht
    exact htmem

theorem mem_spRows {cid : Nat} {species : List (String × Int)} {r : SpeciesObservationRow} :
    r ∈ spRows cid species ↔ ∃ p ∈ species, p.2 > 0 ∧ r = ⟨cid, p.1, p.2⟩ := by
  simp only [spRows, List.mem_filterMap]
  constructor
  · rintro ⟨p, hp, hr⟩
    by_cases hc : p.2 > 0
    · rw [if_pos hc] at hr
      cases hr
      exact ⟨p, hp, hc, rfl⟩
    · rw [if_neg hc] at hr
      cases hr
  · rintro ⟨p, hp, hc, rfl⟩
    exact ⟨p, hp, by rw [if_pos hc]⟩

theorem filter_checklists_old {db : DB} {cid : Nat} (h : ∀ r ∈ db.checklists, r.id < cid)
    (uid : String) :
    db.checklists.filter (fun r => r.id == cid && r.user_id == uid) = [] := by
  rw [List.filter_eq_nil_iff]
  intro r hr
  simp only [Bool.and_eq_true, beq_iff_eq, not_and]
  intro hid
  exact absurd hid (Nat.ne_of_lt (h r hr))

theorem filter_locations_old {db : DB} {cid : Nat}
    (h : ∀ l ∈ db.checklist_locations, l.checklist_id < cid) :
    db.checklist_locations.filter (fun l => l.checklist_id == cid) = [] := by
  rw [List.filter_eq_nil_iff]
  intro l hl
  simp only [beq_iff_eq]
  exact Nat.ne_of_lt (h l hl)

theorem filter_species_old {db : DB} {cid : Nat}
    (h : ∀ s ∈ db.species_observations, s.checklist_id < cid) :
    db.species_observations.filter (fun s => s.checklist_id == cid) = [] := by
  rw [List.filter_eq_nil_iff]
  intro s hs
  simp only [beq_iff_eq]
  exact Nat.ne_of_lt (h s hs)

/-- C3: a valid submission (no `urban` alias in play), immediately read
back through `GET /api/checklists/:id` on the committed store, yields
exactly one location row per habitat key present in the submission, with
the submitted coordinates, and exactly the submitted species entries
with positive count — an entry with count ≤ 0 never appears. -/
theorem submit_then_read_back (db : DB) (hwf : db.WF) (uid gcid : String)
    (huid : uid ≠ "") (hgcid : gcid ≠ "") (ts : Int) (hts : ts ≠ 0) (now : Nat)
    (locs : String → Option Coord) (species : List (String × Int))
    (hurban : locs "urban" = none) :
    ∃ cid detail,
      (submitChecklist noFailure (some uid) ⟨some gcid, locs, species, some ts⟩ now db).1 =
          .ok cid ∧
      getChecklist uid cid
          (submitChecklist noFailure (some uid) ⟨some gcid, locs, species, some ts⟩ now db).2 =
        some detail ∧
      detail.locations =
        locationTypes.filterMap (fun t => (locs t).map (fun c => ⟨t, c.lat, c.lng⟩)) ∧
      (∀ p : SpeciesOut, p ∈ detail.species ↔
        ((p.species_name, p.count) ∈ species ∧ p.count > 0)) := by
  obtain ⟨hwf1, hwf2, hwf3⟩ := hwf
  rw [submitChecklist_noFailure_eq uid gcid huid hgcid ts hts now locs species db]
  refine ⟨db.nextChecklistId,
    ⟨⟨db.nextChecklistId, uid, gcid, ts, now⟩,
     (locRows db.nextChecklistId (normalizeLocations locs) locationTypes).map
       (fun l => ⟨l.location_type, ST_Y l.geom, ST_X l.geom⟩),
     sortBySpeciesName ((spRows db.nextChecklistId species).map
       (fun s => ⟨s.species_name, s.count⟩))⟩,
    rfl, ?_, ?_, ?_⟩
  · unfold getChecklist
    have h1 : ([(⟨db.nextChecklistId, uid, gcid, ts, now⟩ : ChecklistRow)]).filter
        (fun r => r.id == db.nextChecklistId && r.user_id == uid) =
        [⟨db.nextChecklistId, uid, gcid, ts, now⟩] := by simp
    have h2 : (locRows db.nextChecklistId (normalizeLocations locs) locationTypes).filter
        (fun l => l.checklist_id == db.nextChecklistId) =
        locRows db.nextChecklistId (normalizeLocations locs) locationTypes := by
      apply List.filter_eq_self.mpr
      intro r hr
      simp [mem_locRows_id hr]
    have h3 : (spRows db.nextChecklistId species).filter
        (fun s => s.checklist_id == db.nextChecklistId) =
        spRows db.nextChecklistId species := by
      apply List.filter_eq_self.mpr
      intro r hr
      obtain ⟨p, hp, hc, rfl⟩ := mem_spRows.mp hr
      simp
    rw [List.filter_append, filter_checklists_old hwf1 uid,
        List.filter_append, filter_locations_old hwf2,
        List.filter_append, filter_species_old hwf3, h1, h2, h3]
    simp
  · simp only [locRows, List.map_filterMap]
    apply List.filterMap_congr
    intro t _
    rw [normalizeLocations_eq_of_urban_none hurban]
    cases hc : locs t with
    | none => simp
    | some c => simp [ST_X, ST_Y, ST_SetSRID, ST_MakePoint]
  · intro p
    simp only [sortBySpeciesName, mem_sortBy, List.mem_map]
    constructor
    · rintro ⟨s, hs, rfl⟩
      obtain ⟨q, hq, hqpos, rfl⟩ := mem_spRows.mp hs
      exact ⟨hq, hqpos⟩
    · rintro ⟨hp, hc⟩
      refine ⟨⟨db.nextChecklistId, p.species_name, p.count⟩, ?_, by cases p; rfl⟩
      exact mem_spRows.mpr ⟨(p.species_name, p.count), hp, hc, rfl⟩

/-- A concrete locations object with a forest and a swamp point. -/
def locsForestSwamp : String → Option Coord :=
  fun k => if k = "forest" then some ⟨50, 4⟩ else if k = "swamp" then some ⟨51, 5⟩ else none

/-- Witness for C3: a concrete submission with two habitat points and
two species entries, one of them with count 0, read back immediately. -/
theorem submit_then_read_back_witness :
    ∃ cid detail,
      (submitChecklist noFailure (some "alice")
          ⟨some "cell-7", locsForestSwamp, [("Arion ater", 3), ("Limax maximus", 0)],
           some 15⟩ 0 dbEmpty).1 = .ok cid ∧
      getChecklist "alice" cid
          (submitChecklist noFailure (some "alice")
            ⟨some "cell-7", locsForestSwamp, [("Arion ater", 3), ("Limax maximus", 0)],
             some 15⟩ 0 dbEmpty).2 = some detail ∧
      detail.locations =
        locationTypes.filterMap
          (fun t => (locsForestSwamp t).map (fun c => ⟨t, c.lat, c.lng⟩)) ∧
      (∀ p : SpeciesOut, p ∈ detail.species ↔
        ((p.species_name, p.count) ∈ [("Arion ater", (3 : Int)), ("Limax maximus", 0)] ∧
          p.count > 0)) :=
  submit_then_read_back dbEmpty (by refine ⟨?_, ?_, ?_⟩ <;> simp [dbEmpty]) "alice" "cell-7"
    (by decide) (by decide) 15 (by decide) 0 locsForestSwamp
    [("Arion ater", 3), ("Limax maximus", 0)] (by decide)

/-- C6: the token verifier answers 401 (`Unauthenticated`) exactly when
the request carries no bearer token, 403 (`InvalidToken`) exactly when a
token is present but the configured verification path (the external
provider when configured, else local JWT) rejects it; a verified token
yields the `{ id, email }` identity produced by that path, of the same
shape on both paths. -/
theorem authenticateToken_taxonomy (sb : Option (String → Option Identity))
    (jwtV : String → Option Identity) (h : Option String) :
    (authenticateToken sb jwtV h = .unauthenticated ↔ extractBearerToken h = none) ∧
    (authenticateToken sb jwtV h = .invalidToken ↔
      ∃ t, extractBearerToken h = some t ∧ verifyPath sb jwtV t = none) ∧
    (∀ u : Identity, authenticateToken sb jwtV h = .ok u ↔
      ∃ t, extractBearerToken h = some t ∧ verifyPath sb jwtV t = some u) := by
  cases ht : extractBearerToken h with
  | none => simp [authenticateToken, ht]
  | some t =>
    cases sb with
    | none =>
      cases hv : jwtV t with
      | none => simp [authenticateToken, ht, verifyPath, hv]
      | some u => simp [authenticateToken, ht, verifyPath, hv]
    | some getUser =>
      cases hv : getUser t with
      | none => simp [authenticateToken, ht, verifyPath, hv]
      | some u => simp [authenticateToken, ht, verifyPath, hv]

/-- C9: when `DEBUG_API_ERRORS` is not the string `'true'`, both
introspection endpoints answer 404 for every request, with the plain
not-found body and none of their debug payload. -/
theorem debugRoutes_disabled_when_flag_off (flag : Option String)
    (h : flag ≠ some "true") (allowed : List String) (origin authHeader : Option String)
    (sb : Option (String → Option Identity)) (dbUrl : Option String)
    (pool : Option (Except String Int)) :
    debugHeadersRoute flag allowed origin authHeader sb = .notFound ∧
    debugDbRoute flag dbUrl pool = .notFound := by
  constructor
  · simp [debugHeadersRoute, h]
  · simp [debugDbRoute, h]

/-- Witness for C9: with the flag unset, concrete requests to both debug
endpoints get 404 even though a pool and a verifier are configured. -/
theorem debugRoutes_disabled_witness :
    debugHeadersRoute none ["https://www.tandonia.be"] (some "https://www.tandonia.be")
        (some "Bearer abc") (some (fun _ => some ⟨"u1", "u1@example.com"⟩)) = .notFound ∧
    debugDbRoute none (some "postgres://db") (some (.ok 1)) = .notFound :=
  debugRoutes_disabled_when_flag_off none (by simp) ["https://www.tandonia.be"]
    (some "https://www.tandonia.be") (some "Bearer abc")
    (some (fun _ => some ⟨"u1", "u1@example.com"⟩)) (some "postgres://db") (some (.ok 1))

/-! ## Species sortedness -/

theorem sortByCountDesc_sorted (l : List SpeciesEntry) :
    (sortByCountDesc l).Pairwise
      (fun a b => b.observation_count ≤ a.observation_count) := by
  have h := @pairwise_sortBy SpeciesEntry
    (fun a b => decide (b.observation_count ≤ a.observation_count))
    (fun a b c hab hbc => by
      simp only [decide_eq_true_eq] at *
      omega)
    (fun a b => by
      simp only [decide_eq_true_eq]
      omega) l
  have he : sortByCountDesc l =
      sortBy (fun a b : SpeciesEntry =>
        decide (b.observation_count ≤ a.observation_count)) l := rfl
  rw [he]
  exact h.imp (fun hx => by simpa using hx)

theorem fetchSupabase_go_sorted :
    ∀ (tables : List (Option (List RawSpeciesRow))) (l : List SpeciesEntry),
      fetchSupabaseSpeciesTables.go tables = some l →
      l.Pairwise (fun a b => b.observation_count ≤ a.observation_count) := by
  intro tables
  induction tables with
  | nil => intro l h; cases h
  | cons t rest ih =>
    intro l h
    match t with
    | none => exact ih l h
    | some [] => exact ih l h
    | some (r :: rs) =>
      simp only [fetchSupabaseSpeciesTables.go] at h
      cases h
      exact sortByCountDesc_sorted _

theorem nonEmptyList_eq {o : Option (List α)} {l : List α}
    (h : nonEmptyList o = some l) : o = some l := by
  match o with
  | none => cases h
  | some [] => cases h
  | some (a :: t) =>
    simp only [nonEmptyList] at h
    cases h
    rfl

/-- C8: every successful `GET /api/species` response, from whichever
backend path answered (Supabase table scan or Postgres join), is sorted
in non-increasing order of `observation_count`. -/
theorem listSpecies_sorted (sb : Option (List (Option (List RawSpeciesRow))))
    (pg : Option (List PgSpeciesRow)) (l : List SpeciesEntry)
    (h : listSpecies sb pg = .ok l) :
    l.Pairwise (fun a b => b.observation_count ≤ a.observation_count) := by
  unfold listSpecies at h
  cases h1 : nonEmptyList (fetchSupabaseSpeciesTables sb) with
  | some l1 =>
    rw [h1] at h
    cases h
    have h2 := nonEmptyList_eq h1
    match sb, h2 with
    | some tables, h2 =>
      exact fetchSupabase_go_sorted tables _ (by simpa [fetchSupabaseSpeciesTables] using h2)
  | none =>
    rw [h1] at h
    cases h2 : nonEmptyList (fetchPostgresSpeciesJoin pg) with
    | some l2 =>
      rw [h2] at h
      cases h
      have h3 := nonEmptyList_eq h2
      match pg, h3 with
      | some rows, h3 =>
        have h4 : sortByCountDesc (rows.map (fun r =>
            ({ id := r.id, scientific_name := r.scientific_name,
               dutch_name := r.dutch_name,
               observation_count := r.observation_count.getD 0 } : SpeciesEntry))) = l := by
          simpa [fetchPostgresSpeciesJoin] using h3
        rw [← h4]
        exact sortByCountDesc_sorted _
    | none =>
      rw [h2] at h
      cases h

/-- A concrete Supabase species table with counts out of order. -/
def speciesTablesW : List (Option (List RawSpeciesRow)) :=
  [some [{ id := some 1, species_id := none, slug_id := none,
           scientific_name := some "Arion ater", scientificName := none,
           species := none, name := none, title := none,
           dutch_name := none, dutchName := none, common_name := none,
           dutch := none, observation_count := some 2, count := none,
           observationCount := none, observations := none },
         { id := some 2, species_id := none, slug_id := none,
           scientific_name := some "Limax maximus", scientificName := none,
           species := none, name := none, title := none,
           dutch_name := none, dutchName := none, common_name := none,
           dutch := none, observation_count := some 7, count := none,
           observationCount := none, observations := none }]]

/-- Witness for C8: a concrete Supabase table with shuffled counts is
answered sorted descending. -/
theorem listSpecies_sorted_witness :
    ∃ l, listSpecies (some speciesTablesW) none = .ok l ∧
      l.Pairwise (fun a b => b.observation_count ≤ a.observation_count) := by
  obtain ⟨l, hl⟩ : ∃ l, listSpecies (some speciesTablesW) none = .ok l := ⟨_, rfl⟩
  exact ⟨l, hl, listSpecies_sorted (some speciesTablesW) none l hl⟩

/-! ## Grid-cell annotations -/

theorem buildChecklistCounts_eq (cs : List (Option String)) (k : String) :
    buildChecklistCounts cs k = (cs.map jsStringOfKey).count k := by
  suffices h : ∀ m : String → Nat,
      (cs.foldl (fun m c => fun k => if k = jsStringOfKey c then m k + 1 else m k) m) k =
        m k + (cs.map jsStringOfKey).count k by
    simpa [buildChecklistCounts] using h (fun _ => 0)
  induction cs with
  | nil => intro m; simp
  | cons c cs ih =>
    intro m
    simp only [List.foldl_cons, List.map_cons]
    rw [ih, List.count_cons]
    by_cases hk : k = jsStringOfKey c
    · simp [hk]
      omega
    · simp [hk, Ne.symm hk]

theorem mem_gridCellsSupabase {cells : List RawGridRow}
    {checklistFetch : Option (List (Option String))} {f : Feature}
    (h : f ∈ gridCellsSupabase cells checklistFetch) :
    f.properties.has_checklist = decide (0 < f.properties.checklist_count) ∧
    f.properties.checklist_count =
      (match checklistFetch with
       | some cs => buildChecklistCounts cs f.id
       | none => 0) := by
  obtain ⟨p, _, hp⟩ := List.mem_filterMap.mp h
  cases hn : normalizeGridCellRow p.2 p.1 with
  | none => rw [hn] at hp; cases hp
  | some n =>
    rw [hn] at hp
    cases hp
    refine ⟨rfl, ?_⟩
    cases checklistFetch <;> rfl

theorem mem_gridCellsPostgres {gridCells : List PgRawGridCell} {db : DB} {f : Feature}
    (h : f ∈ gridCellsPostgres gridCells db) :
    f.properties.has_checklist = decide (0 < f.properties.checklist_count) ∧
    f.properties.checklist_count =
      (db.checklists.filter (fun c => c.grid_cell_id == f.id)).length := by
  obtain ⟨p, hpm, hp⟩ := List.mem_filterMap.mp h
  cases hn : normalizeGridCellRow
      { id := some p.2.1.id, properties := p.2.1.properties, geometry := p.2.1.geometry }
      p.1 with
  | none => rw [hn] at hp; cases hp
  | some n =>
    rw [hn] at hp
    cases hp
    have hid : n.id = p.2.1.id := by
      cases hg : p.2.1.geometry with
      | none => rw [hg] at hn; cases hn
      | some g => rw [hg] at hn; cases hn; rfl
    have hcnt : p.2.2 = (db.checklists.filter (fun c => c.grid_cell_id == p.2.1.id)).length := by
      obtain ⟨i, q, rfl⟩ : ∃ i q, p = (i, q) := ⟨p.1, p.2, rfl⟩
      have hq : q ∈ gridCells.map (fun gc =>
          (gc, (db.checklists.filter (fun c => c.grid_cell_id == gc.id)).length)) :=
        List.getElem?_mem (List.mk_mem_enum_iff_getElem?.mp hpm)
      obtain ⟨gc, _, rfl⟩ := List.mem_map.mp hq
      rfl
    refine ⟨rfl, ?_⟩
    simpa [hid] using hcnt

/-- C7: every feature answered by `GET /api/grid-cells`, from either
backend branch, carries both derived annotations with
`has_checklist = (checklist_count > 0)`; on the Supabase branch with a
successful checklists fetch, `checklist_count` is the number of fetched
checklist rows whose (stringified) grid-cell reference equals the
feature id, and on the Postgres branch it is the number of `checklists`
rows referencing the cell. -/
theorem gridCells_annotations :
    (∀ (sbGrid : Option (List RawGridRow)) (sbChecklists : Option (List (Option String)))
        (pg : Option (List PgRawGridCell × DB)) (fs : List Feature) (f : Feature),
        listGridCells sbGrid sbChecklists pg = .ok fs → f ∈ fs →
        f.properties.has_checklist = decide (0 < f.properties.checklist_count)) ∧
    (∀ (cells : List RawGridRow) (cs : List (Option String)) (f : Feature),
        f ∈ gridCellsSupabase cells (some cs) →
        f.properties.checklist_count = (cs.map jsStringOfKey).count f.id) ∧
    (∀ (gridCells : List PgRawGridCell) (db : DB) (f : Feature),
        f ∈ gridCellsPostgres gridCells db →
        f.properties.checklist_count =
          (db.checklists.filter (fun c => c.grid_cell_id == f.id)).length) := by
  have hpg : ∀ (pg : Option (List PgRawGridCell × DB)) (fs : List Feature) (f : Feature),
      listGridCellsPg pg = .ok fs → f ∈ fs →
      f.properties.has_checklist = decide (0 < f.properties.checklist_count) := by
    intro pg fs f hok hf
    match pg, hok with
    | some (gcs, db), hok =>
      simp only [listGridCellsPg] at hok
      have hm : f ∈ gridCellsPostgres gcs db := by
        cases hg : gridCellsPostgres gcs db with
        | nil => rw [hg] at hok; cases hok
        | cons a t =>
          rw [hg] at hok
          cases hok
          exact hf
      exact (mem_gridCellsPostgres hm).1
  refine ⟨?_, ?_, ?_⟩
  · intro sbGrid sbChecklists pg fs f hok hf
    match sbGrid with
    | none => exact hpg pg fs f hok hf
    | some [] => exact hpg pg fs f hok hf
    | some (c :: cs) =>
      simp only [listGridCells] at hok
      cases hg : gridCellsSupabase (c :: cs) sbChecklists with
      | nil => rw [hg] at hok; exact hpg pg fs f hok hf
      | cons a t =>
        rw [hg] at hok
        cases hok
        have : f ∈ gridCellsSupabase (c :: cs) sbChecklists := by
          rw [hg]; exact hf
        exact (mem_gridCellsSupabase this).1
  · intro cells cs f hf
    simpa [buildChecklistCounts_eq] using (mem_gridCellsSupabase hf).2
  · intro gridCells db f hf
    exact (mem_gridCellsPostgres hf).2

/-- A concrete grid-cell row served by the Supabase branch. -/
def gridRowW : RawGridRow := { id := some "cell-7", properties := [], geometry := some ⟨"poly"⟩ }

/-- A concrete grid-cell row served by the Postgres branch. -/
def pgGridRowW : PgRawGridCell := { id := "cell-7", properties := [], geometry := some ⟨"poly"⟩ }

/-- Witness for C7: concrete worlds on both branches; the annotated
feature satisfies the equation and the counts match the referencing
rows. -/
theorem gridCells_annotations_witness :
    (∀ f ∈ gridCellsSupabase [gridRowW] (some [some "cell-7", some "cell-9"]),
        f.properties.has_checklist = decide (0 < f.properties.checklist_count) ∧
        f.properties.checklist_count =
          (([some "cell-7", some "cell-9"].map jsStringOfKey)).count f.id) ∧
    (∀ f ∈ gridCellsPostgres [pgGridRowW] dbBob,
        f.properties.checklist_count =
          (dbBob.checklists.filter (fun c => c.grid_cell_id == f.id)).length) := by
  have h := gridCells_annotations
  constructor
  · intro f hf
    refine ⟨?_, h.2.1 [gridRowW] [some "cell-7", some "cell-9"] f hf⟩
    exact h.1 (some [gridRowW]) (some [some "cell-7", some "cell-9"]) none _ f rfl hf
  · intro f hf
    exact h.2.2 [pgGridRowW] dbBob f hf

/-! ## Location-type invariant and key-ignoring -/

theorem insertLocations_ok_locations (fail : FailureOracle) (cid : Nat)
    (locs : String → Option Coord) :
    ∀ (ts : List String) (step : Nat) (db db' : DB) (step' : Nat),
      insertLocations fail cid locs ts step db = .ok (db', step') →
      ∀ r ∈ db'.checklist_locations,
        r ∈ db.checklist_locations ∨ r.location_type ∈ ts := by
  intro ts
  induction ts with
  | nil =>
    intro step db db' step' h r hr
    cases h
    exact .inl hr
  | cons t rest ih =>
    intro step db db' step' h r hr
    simp only [insertLocations] at h
    cases hl : locs t with
    | none =>
      rw [hl] at h
      rcases ih step db db' step' h r hr with hr' | hr'
      · exact .inl hr'
      · exact .inr (List.mem_cons_of_mem t hr')
    | some c =>
      rw [hl] at h
      cases hf : fail step with
      | true => rw [hf] at h; cases h
      | false =>
        rw [hf] at h
        simp only [Bool.false_eq_true, if_false] at h
        rcases ih (step + 1) _ db' step' h r hr with hr' | hr'
        · rcases List.mem_append.mp hr' with hr'' | hr''
          · exact .inl hr''
          · rcases List.mem_singleton.mp hr'' with rfl
            exact .inr (List.mem_cons_self t rest)
        · exact .inr (List.mem_cons_of_mem t hr')

theorem insertSpecies_ok_locations (fail : FailureOracle) (cid : Nat) :
    ∀ (species : List (String × Int)) (step : Nat) (db db' : DB) (step' : Nat),
      insertSpecies fail cid species step db = .ok (db', step') →
      db'.checklist_locations = db.checklist_locations := by
  intro species
  induction species with
  | nil =>
    intro step db db' step' h
    cases h
    rfl
  | cons p rest ih =>
    intro step db db' step' h
    obtain ⟨name, count⟩ := p
    simp only [insertSpecies] at h
    by_cases hc : count > 0
    · rw [if_pos hc] at h
      cases hf : fail step with
      | true => rw [hf] at h; cases h
      | false =>
        rw [hf] at h
        simp only [Bool.false_eq_true, if_false] at h
        exact ih (step + 1)
          { db with species_observations := db.species_observations ++ [⟨cid, name, count⟩] }
          db' step' h
    · rw [if_neg hc] at h
      exact ih step db db' step' h

theorem runInserts_ok_locations (fail : FailureOracle) (uid gcid : String) (ts : Int)
    (now : Nat) (locs : String → Option Coord) (species : List (String × Int))
    (db db' : DB) (cid : Nat)
    (h : runInserts fail uid gcid ts now locs species db = .ok (db', cid)) :
    ∀ r ∈ db'.checklist_locations,
      r ∈ db.checklist_locations ∨ r.location_type ∈ locationTypes := by
  intro r hr
  simp only [runInserts] at h
  split at h
  · cases h
  · split at h
    · cases h
    · rename_i db2 step h1
      split at h
      · cases h
      · rename_i db3 step2 h2
        cases h
        rw [insertSpecies_ok_locations fail db.nextChecklistId species step db2 _ step2 h2]
          at hr
        exact insertLocations_ok_locations fail db.nextChecklistId locs locationTypes 1
          _ db2 step h1 r hr

theorem insertLocations_congr (fail : FailureOracle) (cid : Nat)
    {l1 l2 : String → Option Coord} :
    ∀ (ts : List String), (∀ t ∈ ts, l1 t = l2 t) →
      ∀ (step : Nat) (db : DB),
        insertLocations fail cid l1 ts step db = insertLocations fail cid l2 ts step db := by
  intro ts
  induction ts with
  | nil => intro _ step db; rfl
  | cons t rest ih =>
    intro h step db
    have ht : l1 t = l2 t := h t (List.mem_cons_self t rest)
    have hrest : ∀ t ∈ rest, l1 t = l2 t := fun t ht => h t (List.mem_cons_of_mem _ ht)
    simp only [insertLocations, ht]
    cases l2 t with
    | none => exact ih hrest step db
    | some c =>
      cases fail step with
      | true => rfl
      | false => simp only [Bool.false_eq_true, if_false]; exact ih hrest (step + 1) _

theorem normalizeLocations_congr {l1 l2 : String → Option Coord}
    (h : ∀ k ∈ (["forest", "swamp", "anthropogenous", "urban"] : List String),
      l1 k = l2 k) :
    ∀ t ∈ locationTypes, normalizeLocations l1 t = normalizeLocations l2 t := by
  intro t ht
  have hf : l1 "forest" = l2 "forest" := h "forest" (by simp)
  have hs : l1 "swamp" = l2 "swamp" := h "swamp" (by simp)
  have ha : l1 "anthropogenous" = l2 "anthropogenous" := h "anthropogenous" (by simp)
  have hu : l1 "urban" = l2 "urban" := h "urban" (by simp)
  simp only [locationTypes, List.mem_cons, List.mem_singleton] at ht
  rcases ht with rfl | rfl | rfl | h'
  · simp [normalizeLocations, hf]
  · simp [normalizeLocations, hs]
  · simp [normalizeLocations, ha, hu]
  · cases h'

theorem runInserts_congr (fail : FailureOracle) (uid gcid : String) (ts : Int) (now : Nat)
    (species : List (String × Int)) (db : DB) {l1 l2 : String → Option Coord}
    (h : ∀ t ∈ locationTypes, l1 t = l2 t) :
    runInserts fail uid gcid ts now l1 species db =
      runInserts fail uid gcid ts now l2 species db := by
  simp only [runInserts]
  rw [insertLocations_congr fail db.nextChecklistId locationTypes h]

/-- C10: (a) every `checklist_locations` row after a submission either
predates it or has a `location_type` in the fixed set
`{forest, swamp, anthropogenous}` — in particular never `urban`; (b) the
handler's outcome depends on the locations object only through the keys
`forest`, `swamp`, `anthropogenous` and `urban`, so any other key is
silently ignored: no row, no error, no change of response. -/
theorem submit_locationType_invariant (fail : FailureOracle) (userId : Option String)
    (body : ChecklistBody) (now : Nat) (db : DB) :
    (∀ r ∈ (submitChecklist fail userId body now db).2.checklist_locations,
        r ∈ db.checklist_locations ∨
          (r.location_type ∈ locationTypes ∧ r.location_type ≠ "urban")) ∧
    (∀ locs2 : String → Option Coord,
        (∀ k ∈ (["forest", "swamp", "anthropogenous", "urban"] : List String),
          locs2 k = body.locations k) →
        submitChecklist fail userId { body with locations := locs2 } now db =
          submitChecklist fail userId body now db) := by
  obtain ⟨gcid, locs, species, tsp⟩ := body
  constructor
  · intro r hr
    have hstrong : r ∈ db.checklist_locations ∨ r.location_type ∈ locationTypes := by
      cases userId with
      | none => exact .inl hr
      | some uid =>
        by_cases hu : uid = ""
        · simp only [submitChecklist, hu, if_true] at hr
          exact .inl hr
        · cases gcid with
          | none =>
            simp only [submitChecklist, hu] at hr
            exact .inl hr
          | some g =>
            by_cases hg : g = ""
            · simp only [submitChecklist, hu, hg, if_true] at hr
              exact .inl hr
            · cases tsp with
              | none =>
                simp only [submitChecklist, hu, hg] at hr
                exact .inl hr
              | some t =>
                by_cases ht : t = 0
                · simp only [submitChecklist, hu, hg, ht, if_true] at hr
                  exact .inl hr
                · cases hri : runInserts fail uid g t now (normalizeLocations locs)
                      species db with
                  | error e =>
                    simp only [submitChecklist, hu, hg, ht, hri] at hr
                    exact .inl hr
                  | ok v =>
                    obtain ⟨db', cid⟩ := v
                    simp only [submitChecklist, hu, hg, ht, hri] at hr
                    exact runInserts_ok_locations fail uid g t now
                      (normalizeLocations locs) species db db' cid hri r hr
    rcases hstrong with h | h
    · exact .inl h
    · refine .inr ⟨h, ?_⟩
      simp only [locationTypes, List.mem_cons, List.not_mem_nil, or_false] at h
      rcases h with h | h | h <;> rw [h] <;> decide
  · intro locs2 hk
    have hn : ∀ t ∈ locationTypes, normalizeLocations locs2 t = normalizeLocations locs t :=
      normalizeLocations_congr hk
    cases userId with
    | none => rfl
    | some uid =>
      simp only [submitChecklist]
      by_cases hu : uid = ""
      · simp [hu]
      · simp only [if_neg hu]
        cases gcid with
        | none => rfl
        | some g =>
          by_cases hg : g = ""
          · simp [hg]
          · simp only [if_neg hg]
            cases tsp with
            | none => rfl
            | some t =>
              by_cases ht : t = 0
              · simp [ht]
              · simp only [if_neg ht]
                rw [runInserts_congr fail uid g t now species db hn]

/-- A concrete submission body carrying an `urban` point and a junk
`cave` key. -/
def bodyUrbanJunk : ChecklistBody :=
  { gridCellId := some "cell-7",
    locations := fun k =>
      if k = "urban" then some ⟨50, 4⟩ else if k = "cave" then some ⟨1, 1⟩ else none,
    species := [], timeSpent := some 15 }

/-- The same locations object with the junk `cave` key dropped. -/
def locsUrbanOnly : String → Option Coord :=
  fun k => if k = "urban" then some ⟨50, 4⟩ else none

/-- Witness for C10: on a concrete submission with an `urban` and a
junk `cave` key, the stored row is in the fixed set and is not `urban`,
and dropping the junk key leaves the handler's behaviour unchanged. -/
theorem submit_locationType_invariant_witness :
    ((⟨1, "anthropogenous", ⟨4, 50, 31370⟩⟩ : ChecklistLocationRow) ∈
        dbEmpty.checklist_locations ∨
      ((⟨1, "anthropogenous", ⟨4, 50, 31370⟩⟩ : ChecklistLocationRow).location_type ∈
          locationTypes ∧
        (⟨1, "anthropogenous", ⟨4, 50, 31370⟩⟩ :
          ChecklistLocationRow).location_type ≠ "urban")) ∧
    submitChecklist noFailure (some "user-1")
        { bodyUrbanJunk with locations := locsUrbanOnly } 0 dbEmpty =
      submitChecklist noFailure (some "user-1") bodyUrbanJunk 0 dbEmpty := by
  have h := submit_locationType_invariant noFailure (some "user-1") bodyUrbanJunk 0 dbEmpty
  refine ⟨h.1 ⟨1, "anthropogenous", ⟨4, 50, 31370⟩⟩ (by decide), h.2 locsUrbanOnly ?_⟩
  intro k hk
  fin_cases hk <;> rfl

end Tandonia
